import Mathlib

/-!
Shallow embedding of the two domain value objects of the repository
(`api/src/domain/value-objects/salary.ts` and
`api/src/domain/value-objects/employee-registration.ts`, as given in
`docs/Part 02 - BackEnd side/10-project-backend.md`).

Modelling choices:
* A JavaScript number holding a decimal amount is embedded as a rational `ℚ`.
* `decimalPlaces x` models `x.toString().split('.')[1]?.length || 0`: the number
  of digits after the decimal point of the shortest decimal form of `x`, i.e.
  the least `k` with `x * 10 ^ k` integral.  For a rational with no finite
  decimal expansion the search fails and we return `x.den + 1` (which is `> 2`,
  so such values are rejected exactly as their long float prints would be).
* `Number.isInteger x` is embedded as `x.den = 1`.
* A thrown `Error` is embedded as `Except.error` with one error constructor per
  distinct `throw` site / message of the source.
-/

/- `Rat`'s arithmetic is `@[irreducible]` in Batteries, which blocks `decide`
on concrete rationals; restore default reducibility inside this file so that
concrete instances evaluate. -/
attribute [local semireducible] Rat.add Rat.sub Rat.mul Rat.inv Rat.ofScientific

/-- One constructor per `throw new Error(...)` message in `salary.ts`. -/
inductive SalaryError
  /-- Message "Salary cannot be negative" (also thrown by `subtractAmount` on a negative result) -/
  | negative
  /-- Message "Salary cannot be zero" -/
  | zero
  /-- Message "Salary must have a maximum of 2 decimal places" -/
  | tooPrecise
  /-- Message "Adjustment must be greater than zero" -/
  | adjustmentNegative
  /-- Message "Adjustment must have a maximum of 2 decimal places" -/
  | adjustmentTooPrecise
  /-- Message "Percentage must be greater than zero" -/
  | percentageNotPositive
  /-- Message "Percentage cannot be greater than 100" -/
  | percentageOutOfRange
  deriving DecidableEq, Repr

/-- One constructor per `throw new Error(...)` message in `employee-registration.ts`. -/
inductive RegistrationError
  /-- Message "Employee registration must be greater than 0 and not negative" -/
  | notPositive
  /-- Message "Employee registration must be between 5 and 6 digits" -/
  | badLength
  /-- Message "Employee registration must be an integer number" -/
  | notInteger
  deriving DecidableEq, Repr

/-- Search for the least exponent `k` in `[k0, k0 + fuel)` with `(x * 10 ^ k).den = 1`;
returns `k0 + fuel` when none is found. -/
def dpAux (x : ℚ) : ℕ → ℕ → ℕ
  | k, 0 => k
  | k, fuel + 1 => if (x * (10 : ℚ) ^ k).den = 1 then k else dpAux x (k + 1) fuel

/-- Number of decimal places of `x` (the `decimalPlaces` local of `salary.ts`):
least `k` with `x * 10 ^ k` integral.  Searching up to `x.den` always suffices
for a terminating decimal; otherwise the default `x.den + 1 > 2` is returned. -/
def decimalPlaces (x : ℚ) : ℕ := dpAux x 0 (x.den + 1)

/-- Number of characters of the base-10 string of a natural number
(`fuel`-driven so that the kernel can evaluate it). -/
def digitsLen : ℕ → ℕ → ℕ
  | 0, _ => 0
  | fuel + 1, n => if n < 10 then 1 else digitsLen fuel (n / 10) + 1

/-- Decimal digit count of a natural number (`"0"` has one digit). -/
def intDigits (n : ℕ) : ℕ := digitsLen (n + 1) n

/-- Length of `x.toString()` in plain decimal notation for a positive rational
`x` (`employee-registration.ts` only evaluates it after its positivity check):
digits of the integer part, plus, for a fractional value, the point and the
fractional digits. -/
def jsStrLength (x : ℚ) : ℕ :=
  intDigits x.floor.toNat +
    (if decimalPlaces x = 0 then 0 else decimalPlaces x + 1)

/-- The `Salary` value object: a wrapped, validated amount. -/
structure Salary where
  amount : ℚ
  deriving DecidableEq, Repr

/-- Validator `Salary.validateAmount`: negative, zero, then precision check, in source order. -/
def validateAmount (amount : ℚ) : Except SalaryError Unit :=
  if amount < 0 then .error .negative
  else if amount = 0 then .error .zero
  else if 2 < decimalPlaces amount then .error .tooPrecise
  else .ok ()

/-- The validating constructor `new Salary(amount)`. -/
def Salary.create (amount : ℚ) : Except SalaryError Salary :=
  match validateAmount amount with
  | .error e => .error e
  | .ok _ => .ok ⟨amount⟩

/-- Accessor `Salary.getAmount`. -/
def Salary.getAmount (s : Salary) : ℚ := s.amount

/-- Validator `Salary.validateAdjustment`: non-negative (zero allowed) and precision check. -/
def validateAdjustment (adjustment : ℚ) : Except SalaryError Unit :=
  if adjustment < 0 then .error .adjustmentNegative
  else if 2 < decimalPlaces adjustment then .error .adjustmentTooPrecise
  else .ok ()

/-- Operation `Salary.addAmount`: validates the adjustment with `validateAmount` (the
creation rule set), then builds `new Salary(this.amount + adjustment)`. -/
def Salary.addAmount (s : Salary) (adjustment : ℚ) : Except SalaryError Salary :=
  match validateAmount adjustment with
  | .error e => .error e
  | .ok _ => Salary.create (s.amount + adjustment)

/-- Operation `Salary.subtractAmount`: validates the adjustment with `validateAdjustment`,
rejects a negative difference, then builds `new Salary(newAmount)`
(the source's local `newAmount = this.amount - adjustment` is inlined). -/
def Salary.subtractAmount (s : Salary) (adjustment : ℚ) : Except SalaryError Salary :=
  match validateAdjustment adjustment with
  | .error e => .error e
  | .ok _ =>
    if s.amount - adjustment < 0 then .error .negative
    else Salary.create (s.amount - adjustment)

/-- Operation `Salary.increaseByPercentage`: range-checks the percentage, then builds
`new Salary(this.amount + this.amount * (percentage / 100))`. -/
def Salary.increaseByPercentage (s : Salary) (percentage : ℚ) : Except SalaryError Salary :=
  if percentage ≤ 0 then .error .percentageNotPositive
  else if 100 < percentage then .error .percentageOutOfRange
  else Salary.create (s.amount + s.amount * (percentage / 100))

/-- Serializer `Salary.toJSON`. -/
def Salary.toJSON (s : Salary) : ℚ := s.amount

/-- Equality `Salary.isEqualTo`. -/
def Salary.isEqualTo (s other : Salary) : Bool := s.amount == other.getAmount

/-- The `EmployeeRegistration` value object. -/
structure EmployeeRegistration where
  registrationNumber : ℚ
  deriving DecidableEq, Repr

/-- Validator `EmployeeRegistration.validateRegistrationNumber`: positivity, then string
length between 5 and 6, then `Number.isInteger`, in source order. -/
def validateRegistrationNumber (registrationNumber : ℚ) : Except RegistrationError Unit :=
  if registrationNumber ≤ 0 then .error .notPositive
  else if jsStrLength registrationNumber < 5 ∨ 6 < jsStrLength registrationNumber then
    .error .badLength
  else if ¬ registrationNumber.den = 1 then .error .notInteger
  else .ok ()

/-- The validating constructor `new EmployeeRegistration(registrationNumber)`. -/
def EmployeeRegistration.create (registrationNumber : ℚ) :
    Except RegistrationError EmployeeRegistration :=
  match validateRegistrationNumber registrationNumber with
  | .error e => .error e
  | .ok _ => .ok ⟨registrationNumber⟩

/-- Accessor `EmployeeRegistration.getValue`. -/
def EmployeeRegistration.getValue (e : EmployeeRegistration) : ℚ := e.registrationNumber

/-- Equality `EmployeeRegistration.isEqualTo`. -/
def EmployeeRegistration.isEqualTo (e other : EmployeeRegistration) : Bool :=
  e.registrationNumber == other.getValue

/-- Serializer `EmployeeRegistration.toJSON`. -/
def EmployeeRegistration.toJSON (e : EmployeeRegistration) : ℚ := e.registrationNumber

deriving instance DecidableEq for Except

/-! ### Supporting lemmas -/

theorem den_one_mul_ten {y : ℚ} (h : y.den = 1) : (y * 10).den = 1 := by
  obtain ⟨n, rfl⟩ : ∃ n : ℤ, y = (n : ℚ) := ⟨y.num, (Rat.coe_int_num_of_den_eq_one h).symm⟩
  rw [show ((n : ℚ) * 10) = ((n * 10 : ℤ) : ℚ) by push_cast; ring]
  exact Rat.den_intCast _

theorem den_one_mul_pow_le {x : ℚ} {j j' : ℕ} (hjj : j ≤ j') (h : (x * 10 ^ j).den = 1) :
    (x * 10 ^ j').den = 1 := by
  obtain ⟨d, rfl⟩ := Nat.exists_eq_add_of_le hjj
  clear hjj
  induction d with
  | zero => simpa using h
  | succ n ih =>
    have e : x * 10 ^ (j + (n + 1)) = x * 10 ^ (j + n) * 10 := by ring
    rw [e]
    exact den_one_mul_ten ih

theorem dpAux_le (x : ℚ) : ∀ fuel k : ℕ, dpAux x k fuel ≤ k + fuel := by
  intro fuel
  induction fuel with
  | zero =>
    intro k
    have e : dpAux x k 0 = k := rfl
    omega
  | succ n ih =>
    intro k
    have e : dpAux x k (n + 1) = if (x * 10 ^ k).den = 1 then k else dpAux x (k + 1) n := rfl
    rw [e]
    split_ifs with hk
    · omega
    · have := ih (k + 1); omega

theorem dpAux_le_of_den (x : ℚ) :
    ∀ fuel k j : ℕ, k ≤ j → j ≤ k + fuel → (x * 10 ^ j).den = 1 → dpAux x k fuel ≤ j := by
  intro fuel
  induction fuel with
  | zero =>
    intro k j h1 _ _
    exact le_of_eq_of_le (rfl : dpAux x k 0 = k) h1
  | succ n ih =>
    intro k j h1 h2 hj
    have e : dpAux x k (n + 1) = if (x * 10 ^ k).den = 1 then k else dpAux x (k + 1) n := rfl
    rw [e]
    split_ifs with hk
    · exact h1
    · rcases Nat.eq_or_lt_of_le h1 with rfl | hlt
      · exact absurd hj hk
      · exact ih (k + 1) j hlt (by omega) hj

theorem dpAux_den (x : ℚ) :
    ∀ fuel k : ℕ, dpAux x k fuel < k + fuel → (x * 10 ^ dpAux x k fuel).den = 1 := by
  intro fuel
  induction fuel with
  | zero =>
    intro k h
    have e : dpAux x k 0 = k := rfl
    omega
  | succ n ih =>
    intro k h
    have e : dpAux x k (n + 1) = if (x * 10 ^ k).den = 1 then k else dpAux x (k + 1) n := rfl
    by_cases hk : (x * 10 ^ k).den = 1
    · rw [e, if_pos hk]; exact hk
    · rw [e, if_neg hk] at h ⊢
      exact ih (k + 1) (by omega)

/-- The precision check of the source: at most two decimal places means the
amount scaled by `100` is an integer. -/
theorem decimalPlaces_le_two_iff (x : ℚ) : decimalPlaces x ≤ 2 ↔ (x * 100).den = 1 := by
  have dpe : decimalPlaces x = dpAux x 0 (x.den + 1) := rfl
  have e100 : x * 100 = x * 10 ^ 2 := by norm_num
  constructor
  · intro h
    rcases Nat.lt_or_ge (decimalPlaces x) (x.den + 1) with hlt | hge
    · have hd := dpAux_den x (x.den + 1) 0 (by rw [← dpe]; omega)
      rw [← dpe] at hd
      rw [e100]
      exact den_one_mul_pow_le h hd
    · exfalso
      have hpos := x.den_pos
      have hden : x.den = 1 := by rw [dpe] at h; omega
      have h0 : (x * 10 ^ 0).den = 1 := by simpa using hden
      have hle := dpAux_le_of_den x (x.den + 1) 0 0 le_rfl (by omega) h0
      rw [← dpe] at hle
      omega
  · intro h
    rw [e100] at h
    have hpos := x.den_pos
    rw [dpe]
    exact dpAux_le_of_den x (x.den + 1) 0 2 (by omega) (by omega) h

theorem den_mul_hundred_add {a b : ℚ} (ha : (a * 100).den = 1) (hb : (b * 100).den = 1) :
    ((a + b) * 100).den = 1 := by
  obtain ⟨n, hn⟩ : ∃ n : ℤ, a * 100 = (n : ℚ) :=
    ⟨(a * 100).num, (Rat.coe_int_num_of_den_eq_one ha).symm⟩
  obtain ⟨m, hm⟩ : ∃ m : ℤ, b * 100 = (m : ℚ) :=
    ⟨(b * 100).num, (Rat.coe_int_num_of_den_eq_one hb).symm⟩
  have e : (a + b) * 100 = ((n + m : ℤ) : ℚ) := by rw [add_mul, hn, hm]; push_cast; ring
  rw [e]
  exact Rat.den_intCast _

theorem den_mul_hundred_sub {a b : ℚ} (ha : (a * 100).den = 1) (hb : (b * 100).den = 1) :
    ((a - b) * 100).den = 1 := by
  obtain ⟨n, hn⟩ : ∃ n : ℤ, a * 100 = (n : ℚ) :=
    ⟨(a * 100).num, (Rat.coe_int_num_of_den_eq_one ha).symm⟩
  obtain ⟨m, hm⟩ : ∃ m : ℤ, b * 100 = (m : ℚ) :=
    ⟨(b * 100).num, (Rat.coe_int_num_of_den_eq_one hb).symm⟩
  have e : (a - b) * 100 = ((n - m : ℤ) : ℚ) := by rw [sub_mul, hn, hm]; push_cast; ring
  rw [e]
  exact Rat.den_intCast _

theorem validateAmount_ok_iff (a : ℚ) :
    validateAmount a = .ok () ↔ 0 < a ∧ decimalPlaces a ≤ 2 := by
  unfold validateAmount
  split_ifs with h1 h2 h3
  · simp only [reduceCtorEq, false_iff]
    intro h
    exact absurd h.1 (lt_asymm h1)
  · simp only [reduceCtorEq, false_iff]
    intro h
    exact absurd h.1 (by rw [h2]; exact lt_irrefl 0)
  · simp only [reduceCtorEq, false_iff]
    intro h
    omega
  · simp only [true_iff]
    exact ⟨lt_of_le_of_ne (not_lt.mp h1) (Ne.symm h2), by omega⟩

theorem validateAdjustment_ok_iff (a : ℚ) :
    validateAdjustment a = .ok () ↔ 0 ≤ a ∧ decimalPlaces a ≤ 2 := by
  unfold validateAdjustment
  split_ifs with h1 h2
  · simp only [reduceCtorEq, false_iff]
    intro h
    exact absurd h.1 (not_le.mpr h1)
  · simp only [reduceCtorEq, false_iff]
    intro h
    omega
  · simp only [true_iff]
    exact ⟨not_lt.mp h1, by omega⟩

theorem Salary.create_ok_iff (a : ℚ) (s : Salary) :
    Salary.create a = .ok s ↔ 0 < a ∧ decimalPlaces a ≤ 2 ∧ s = ⟨a⟩ := by
  unfold Salary.create
  cases h : validateAmount a with
  | error e =>
    simp only [reduceCtorEq, false_iff]
    intro hc
    have := (validateAmount_ok_iff a).mpr ⟨hc.1, hc.2.1⟩
    rw [h] at this
    cases this
  | ok u =>
    cases u
    rw [validateAmount_ok_iff] at h
    simp only [Except.ok.injEq]
    constructor
    · intro hs; exact ⟨h.1, h.2, hs.symm⟩
    · intro hs; exact hs.2.2.symm

theorem addAmount_ok_create {m s : Salary} {x : ℚ} (h : m.addAmount x = .ok s) :
    Salary.create (m.amount + x) = .ok s := by
  unfold Salary.addAmount at h
  cases hv : validateAmount x with
  | error e => rw [hv] at h; exact Except.noConfusion h
  | ok u => rw [hv] at h; exact h

theorem subtractAmount_ok_create {m s : Salary} {x : ℚ} (h : m.subtractAmount x = .ok s) :
    Salary.create (m.amount - x) = .ok s := by
  unfold Salary.subtractAmount at h
  cases hv : validateAdjustment x with
  | error e => rw [hv] at h; exact Except.noConfusion h
  | ok u =>
    rw [hv] at h
    split_ifs at h with hneg
    exact h

theorem increaseByPercentage_ok_create {m s : Salary} {x : ℚ}
    (h : m.increaseByPercentage x = .ok s) :
    Salary.create (m.amount + m.amount * (x / 100)) = .ok s := by
  unfold Salary.increaseByPercentage at h
  split_ifs at h with h1 h2
  exact h

theorem decimalPlaces_eq_zero {x : ℚ} (h : x.den = 1) : decimalPlaces x = 0 := by
  have h0 : (x * 10 ^ 0).den = 1 := by simpa using h
  have hle := dpAux_le_of_den x (x.den + 1) 0 0 le_rfl (by omega) h0
  have dpe : decimalPlaces x = dpAux x 0 (x.den + 1) := rfl
  omega

theorem jsStrLength_natCast (n : ℕ) : jsStrLength (n : ℚ) = intDigits n := by
  unfold jsStrLength
  rw [decimalPlaces_eq_zero (Rat.den_natCast n)]
  simp [Rat.floor_def', Rat.num_natCast, Rat.den_natCast]

theorem digitsLen_eq (k : ℕ) :
    ∀ fuel n : ℕ, 10 ^ k ≤ n → n < 10 ^ (k + 1) → k < fuel → digitsLen fuel n = k + 1 := by
  induction k with
  | zero =>
    intro fuel n h1 h2 hf
    cases fuel with
    | zero => omega
    | succ f =>
      have hn : n < 10 := by simpa using h2
      simp [digitsLen, hn]
  | succ j ih =>
    intro fuel n h1 h2 hf
    cases fuel with
    | zero => omega
    | succ f =>
      have hpow : (10 : ℕ) ≤ 10 ^ (j + 1) := by
        calc (10 : ℕ) = 10 ^ 1 := (pow_one 10).symm
        _ ≤ 10 ^ (j + 1) := Nat.pow_le_pow_right (by norm_num) (by omega)
      have h10 : ¬ n < 10 := by omega
      rw [show digitsLen (f + 1) n = if n < 10 then 1 else digitsLen f (n / 10) + 1 from rfl,
        if_neg h10]
      have hd1 : 10 ^ j ≤ n / 10 := by
        rw [Nat.le_div_iff_mul_le (by norm_num)]
        calc 10 ^ j * 10 = 10 ^ (j + 1) := by ring
        _ ≤ n := h1
      have hd2 : n / 10 < 10 ^ (j + 1) := by
        rw [Nat.div_lt_iff_lt_mul (by norm_num)]
        calc n < 10 ^ (j + 1 + 1) := h2
        _ = 10 ^ (j + 1) * 10 := by ring
      rw [ih f (n / 10) hd1 hd2 (by omega)]

theorem intDigits_in_range (n : ℕ) (h1 : 10000 ≤ n) (h2 : n ≤ 999999) :
    intDigits n = 5 ∨ intDigits n = 6 := by
  unfold intDigits
  rcases Nat.lt_or_ge n 100000 with h | h
  · left
    exact digitsLen_eq 4 (n + 1) n
      (by calc (10 : ℕ) ^ 4 = 10000 := by norm_num
        _ ≤ n := h1)
      (by calc n < 100000 := h
        _ = 10 ^ (4 + 1) := by norm_num)
      (by omega)
  · right
    exact digitsLen_eq 5 (n + 1) n
      (by calc (10 : ℕ) ^ 5 = 100000 := by norm_num
        _ ≤ n := h)
      (by calc n < 1000000 := by omega
        _ = 10 ^ (5 + 1) := by norm_num)
      (by omega)

/-! ### Claims -/

/-- C1: every `Salary` reachable through the public interface — produced by the
validating constructor, `addAmount`, `subtractAmount` or `increaseByPercentage`
— satisfies the creation invariants: its amount is strictly positive (neither
negative nor zero) and has at most two decimal places. -/
theorem salary_reachable_invariant (x : ℚ) (m s : Salary)
    (h : Salary.create x = .ok s ∨ m.addAmount x = .ok s ∨ m.subtractAmount x = .ok s ∨
      m.increaseByPercentage x = .ok s) :
    0 < s.getAmount ∧ decimalPlaces s.getAmount ≤ 2 := by
  have key : ∀ y : ℚ, Salary.create y = .ok s →
      0 < s.getAmount ∧ decimalPlaces s.getAmount ≤ 2 := by
    intro y hy
    rw [Salary.create_ok_iff] at hy
    obtain ⟨h1, h2, rfl⟩ := hy
    exact ⟨h1, h2⟩
  rcases h with h | h | h | h
  · exact key x h
  · exact key _ (addAmount_ok_create h)
  · exact key _ (subtractAmount_ok_create h)
  · exact key _ (increaseByPercentage_ok_create h)

/-- Witness for C1 at the constructed salary `5000`. -/
theorem salary_reachable_invariant_witness :
    0 < (Salary.mk 5000).getAmount ∧ decimalPlaces (Salary.mk 5000).getAmount ≤ 2 :=
  salary_reachable_invariant 5000 ⟨5000⟩ ⟨5000⟩ (Or.inl (by decide))

/-- C2: on a validly constructed salary, `addAmount` fails whenever the delta is
negative, zero, or has more than two decimal places (the creation rule set
applied to the delta); otherwise it returns a new salary holding
`amount + delta`, the revalidation of the sum succeeding. -/
theorem addAmount_spec (m : Salary) (d : ℚ)
    (hpos : 0 < m.getAmount) (hprec : decimalPlaces m.getAmount ≤ 2) :
    ((d < 0 ∨ d = 0 ∨ 2 < decimalPlaces d) → ∃ e, m.addAmount d = .error e) ∧
    (0 < d → decimalPlaces d ≤ 2 → m.addAmount d = .ok ⟨m.getAmount + d⟩) := by
  constructor
  · intro hbad
    unfold Salary.addAmount
    cases hv : validateAmount d with
    | error e => exact ⟨e, rfl⟩
    | ok u =>
      cases u
      rw [validateAmount_ok_iff] at hv
      rcases hbad with h | h | h
      · exact absurd hv.1 (lt_asymm h)
      · exact absurd hv.1 (by rw [h]; exact lt_irrefl 0)
      · omega
  · intro hd1 hd2
    unfold Salary.addAmount
    rw [show validateAmount d = .ok () from (validateAmount_ok_iff d).mpr ⟨hd1, hd2⟩]
    have hsum : decimalPlaces (m.getAmount + d) ≤ 2 := by
      rw [decimalPlaces_le_two_iff]
      exact den_mul_hundred_add ((decimalPlaces_le_two_iff _).mp hprec)
        ((decimalPlaces_le_two_iff _).mp hd2)
    exact (Salary.create_ok_iff _ _).mpr ⟨add_pos hpos hd1, hsum, rfl⟩

/-- Witness for C2: `5000 + 1000`. -/
theorem addAmount_spec_witness :
    (((1000 : ℚ) < 0 ∨ (1000 : ℚ) = 0 ∨ 2 < decimalPlaces 1000) →
      ∃ e, (Salary.mk 5000).addAmount 1000 = .error e) ∧
    (0 < (1000 : ℚ) → decimalPlaces (1000 : ℚ) ≤ 2 →
      (Salary.mk 5000).addAmount 1000 = .ok ⟨(Salary.mk 5000).getAmount + 1000⟩) :=
  addAmount_spec ⟨5000⟩ 1000 (by decide) (by decide)

/-- C3: on a validly constructed salary, `subtractAmount` rejects a negative
delta and an over-precise delta but accepts a zero delta (the looser adjustment
rule set); once the delta passes that validation it fails with the negative
error whenever `amount - delta` is negative, and for a strictly positive
difference it returns a new salary holding the difference. -/
theorem subtractAmount_spec (m : Salary) (d : ℚ)
    (hpos : 0 < m.getAmount) (hprec : decimalPlaces m.getAmount ≤ 2) :
    (d < 0 → m.subtractAmount d = .error .adjustmentNegative) ∧
    (2 < decimalPlaces d → ∃ e, m.subtractAmount d = .error e) ∧
    (0 ≤ d → decimalPlaces d ≤ 2 → m.getAmount - d < 0 →
      m.subtractAmount d = .error .negative) ∧
    (0 ≤ d → decimalPlaces d ≤ 2 → 0 < m.getAmount - d →
      m.subtractAmount d = .ok ⟨m.getAmount - d⟩) := by
  refine ⟨?_, ?_, ?_, ?_⟩
  · intro h
    unfold Salary.subtractAmount validateAdjustment
    rw [if_pos h]
  · intro h
    unfold Salary.subtractAmount
    cases hv : validateAdjustment d with
    | error e => exact ⟨e, rfl⟩
    | ok u =>
      cases u
      rw [validateAdjustment_ok_iff] at hv
      omega
  · intro h0 h2 hneg
    unfold Salary.subtractAmount
    rw [show validateAdjustment d = .ok () from (validateAdjustment_ok_iff d).mpr ⟨h0, h2⟩]
    rw [if_pos (show m.amount - d < 0 from hneg)]
  · intro h0 h2 hdiff
    unfold Salary.subtractAmount
    rw [show validateAdjustment d = .ok () from (validateAdjustment_ok_iff d).mpr ⟨h0, h2⟩]
    rw [if_neg (show ¬ m.amount - d < 0 from not_lt.mpr (le_of_lt hdiff))]
    have hsub : decimalPlaces (m.getAmount - d) ≤ 2 := by
      rw [decimalPlaces_le_two_iff]
      exact den_mul_hundred_sub ((decimalPlaces_le_two_iff _).mp hprec)
        ((decimalPlaces_le_two_iff _).mp h2)
    exact (Salary.create_ok_iff _ _).mpr ⟨hdiff, hsub, rfl⟩

/-- Witness for C3: subtracting `1000` from `5000`. -/
theorem subtractAmount_spec_witness :
    ((1000 : ℚ) < 0 → (Salary.mk 5000).subtractAmount 1000 = .error .adjustmentNegative) ∧
    (2 < decimalPlaces (1000 : ℚ) → ∃ e, (Salary.mk 5000).subtractAmount 1000 = .error e) ∧
    (0 ≤ (1000 : ℚ) → decimalPlaces (1000 : ℚ) ≤ 2 →
      (Salary.mk 5000).getAmount - 1000 < 0 →
      (Salary.mk 5000).subtractAmount 1000 = .error .negative) ∧
    (0 ≤ (1000 : ℚ) → decimalPlaces (1000 : ℚ) ≤ 2 →
      0 < (Salary.mk 5000).getAmount - 1000 →
      (Salary.mk 5000).subtractAmount 1000 = .ok ⟨(Salary.mk 5000).getAmount - 1000⟩) :=
  subtractAmount_spec ⟨5000⟩ 1000 (by decide) (by decide)

/-- C4 counterexample: the decimal string of `123456.5` has 8 characters, so
the length check — which the source runs before the integer check — reports
the bad-length error there, not the not-integer error the claim expects. -/
theorem registration_fractional_cex :
    EmployeeRegistration.create (123456.5 : ℚ) = .error .badLength ∧
      ¬ EmployeeRegistration.create (123456.5 : ℚ) = .error .notInteger := by
  constructor
  · decide
  · decide

/-- C4 (amended): every positive raw value with a fractional component is
rejected, but the surfaced error depends on the length check that runs first:
it is the not-integer error exactly when the value's decimal string length
lies in `[5, 6]`, and the bad-length error otherwise — in particular
`123456.5` (string length 8) fails with the bad-length error, not the
not-integer error. -/
theorem registration_fractional_spec (x : ℚ) (hx : 0 < x) (hnint : ¬ x.den = 1) :
    (5 ≤ jsStrLength x → jsStrLength x ≤ 6 →
      EmployeeRegistration.create x = .error .notInteger) ∧
    ((jsStrLength x < 5 ∨ 6 < jsStrLength x) →
      EmployeeRegistration.create x = .error .badLength) := by
  constructor
  · intro h5 h6
    unfold EmployeeRegistration.create validateRegistrationNumber
    rw [if_neg (not_le.mpr hx),
      if_neg (by omega : ¬ (jsStrLength x < 5 ∨ 6 < jsStrLength x)), if_pos hnint]
  · intro h
    unfold EmployeeRegistration.create validateRegistrationNumber
    rw [if_neg (not_le.mpr hx), if_pos h]

/-- Witness for C4 (amended) at `123456.5`, whose string length is 8. -/
theorem registration_fractional_spec_witness :
    (5 ≤ jsStrLength (123456.5 : ℚ) → jsStrLength (123456.5 : ℚ) ≤ 6 →
      EmployeeRegistration.create (123456.5 : ℚ) = .error .notInteger) ∧
    ((jsStrLength (123456.5 : ℚ) < 5 ∨ 6 < jsStrLength (123456.5 : ℚ)) →
      EmployeeRegistration.create (123456.5 : ℚ) = .error .badLength) :=
  registration_fractional_spec (123456.5 : ℚ) (by decide) (by decide)

/-- C5: every positive integer with 5 or 6 decimal digits (that is, between
`10000` and `999999`) is accepted by the registration constructor, and the
stored value read back through `getValue` is exactly that integer. -/
theorem registration_five_six_digits (n : ℕ) (h1 : 10000 ≤ n) (h2 : n ≤ 999999) :
    EmployeeRegistration.create (n : ℚ) = .ok ⟨(n : ℚ)⟩ ∧
      (EmployeeRegistration.mk (n : ℚ)).getValue = (n : ℚ) := by
  constructor
  · unfold EmployeeRegistration.create validateRegistrationNumber
    have hpos : ¬ (n : ℚ) ≤ 0 := by
      push_neg
      exact_mod_cast (by omega : 0 < n)
    have hlen : ¬ (jsStrLength (n : ℚ) < 5 ∨ 6 < jsStrLength (n : ℚ)) := by
      rw [jsStrLength_natCast]
      rcases intDigits_in_range n h1 h2 with h | h <;> omega
    rw [if_neg hpos, if_neg hlen, if_neg (not_not_intro (Rat.den_natCast n))]
  · rfl

/-- Witness for C5 at `12345`. -/
theorem registration_five_six_digits_witness :
    EmployeeRegistration.create ((12345 : ℕ) : ℚ) = .ok ⟨((12345 : ℕ) : ℚ)⟩ ∧
      (EmployeeRegistration.mk ((12345 : ℕ) : ℚ)).getValue = ((12345 : ℕ) : ℚ) :=
  registration_five_six_digits 12345 (by omega) (by omega)

/-- C6: any raw value `≤ 0` is rejected with the not-positive error, even when
the length or integrality checks would also fail — positivity is the first
check the source runs, so it determines the surfaced error. -/
theorem registration_nonpositive_first (x : ℚ) (h : x ≤ 0) :
    EmployeeRegistration.create x = .error .notPositive := by
  unfold EmployeeRegistration.create validateRegistrationNumber
  rw [if_pos h]

/-- Witness for C6 at `-1234.5`, which also violates length and integrality. -/
theorem registration_nonpositive_first_witness :
    EmployeeRegistration.create (-1234.5 : ℚ) = .error .notPositive :=
  registration_nonpositive_first (-1234.5 : ℚ) (by decide)

/-- C7 counterexample: `create(12.5)` succeeds, the percentage `1` satisfies
`0 < 1 ≤ 100`, yet `increaseByPercentage` does not return the new instance the
claim promises: the computed amount `12.625` fails the re-validation with the
too-precise error. -/
theorem increase_tooPrecise_cex :
    Salary.create (12.5 : ℚ) = .ok ⟨(12.5 : ℚ)⟩ ∧
      (0 : ℚ) < 1 ∧ (1 : ℚ) ≤ 100 ∧
      (Salary.mk (12.5 : ℚ)).increaseByPercentage 1 = .error .tooPrecise := by
  refine ⟨by decide, by decide, by decide, by decide⟩

/-- C7 (amended): on a validly constructed salary, `increaseByPercentage`
fails with the not-positive error if `pct ≤ 0`, with the out-of-range error if
`pct > 100`; for `0 < pct ≤ 100` it builds `amount + amount * pct / 100` and
re-validates it: it returns the new instance when that result has at most two
decimal places, and fails with the too-precise error otherwise.  The claim's
scenarios hold: `create(1000).increaseByPercentage(10)` yields `1100`, while
percentages `0` and `101` fail. -/
theorem increaseByPercentage_spec (m : Salary) (p : ℚ)
    (hpos : 0 < m.getAmount) (hprec : decimalPlaces m.getAmount ≤ 2) :
    (p ≤ 0 → m.increaseByPercentage p = .error .percentageNotPositive) ∧
    (100 < p → m.increaseByPercentage p = .error .percentageOutOfRange) ∧
    (0 < p → p ≤ 100 → decimalPlaces (m.getAmount + m.getAmount * (p / 100)) ≤ 2 →
      m.increaseByPercentage p = .ok ⟨m.getAmount + m.getAmount * (p / 100)⟩) ∧
    (0 < p → p ≤ 100 → 2 < decimalPlaces (m.getAmount + m.getAmount * (p / 100)) →
      m.increaseByPercentage p = .error .tooPrecise) := by
  have hres : ∀ _ : 0 < p, 0 < m.getAmount + m.getAmount * (p / 100) := fun hp =>
    add_pos hpos (mul_pos hpos (div_pos hp (by norm_num)))
  refine ⟨?_, ?_, ?_, ?_⟩
  · intro h
    unfold Salary.increaseByPercentage
    rw [if_pos h]
  · intro h
    unfold Salary.increaseByPercentage
    rw [if_neg (not_le.mpr (lt_trans (by norm_num) h)), if_pos h]
  · intro hp h100 hdp
    unfold Salary.increaseByPercentage
    rw [if_neg (not_le.mpr hp), if_neg (not_lt.mpr h100)]
    exact (Salary.create_ok_iff _ _).mpr ⟨hres hp, hdp, rfl⟩
  · intro hp h100 hdp
    unfold Salary.increaseByPercentage
    rw [if_neg (not_le.mpr hp), if_neg (not_lt.mpr h100)]
    unfold Salary.create validateAmount
    rw [if_neg (show ¬ m.amount + m.amount * (p / 100) < 0 from
        not_lt.mpr (le_of_lt (hres hp))),
      if_neg (show ¬ m.amount + m.amount * (p / 100) = 0 from ne_of_gt (hres hp)),
      if_pos (show 2 < decimalPlaces (m.amount + m.amount * (p / 100)) from hdp)]

/-- Witness for C7 (amended): `create(1000).increaseByPercentage(10)` yields
`1100`. -/
theorem increaseByPercentage_spec_witness :
    ((10 : ℚ) ≤ 0 → (Salary.mk 1000).increaseByPercentage 10 = .error .percentageNotPositive) ∧
    (100 < (10 : ℚ) → (Salary.mk 1000).increaseByPercentage 10 = .error .percentageOutOfRange) ∧
    (0 < (10 : ℚ) → (10 : ℚ) ≤ 100 →
      decimalPlaces ((Salary.mk 1000).getAmount + (Salary.mk 1000).getAmount * (10 / 100)) ≤ 2 →
      (Salary.mk 1000).increaseByPercentage 10 =
        .ok ⟨(Salary.mk 1000).getAmount + (Salary.mk 1000).getAmount * (10 / 100)⟩) ∧
    (0 < (10 : ℚ) → (10 : ℚ) ≤ 100 →
      2 < decimalPlaces ((Salary.mk 1000).getAmount + (Salary.mk 1000).getAmount * (10 / 100)) →
      (Salary.mk 1000).increaseByPercentage 10 = .error .tooPrecise) :=
  increaseByPercentage_spec ⟨1000⟩ 10 (by decide) (by decide)

/-- C8: no derived operation mutates its receiver — the operations build a new
instance while the receiver keeps reporting the amount it was constructed
with; in the claim's scenario, `create(5000).addAmount(1000)` produces an
instance reporting `6000` while the original still reports `5000`. -/
theorem salary_immutable (a d : ℚ) (m : Salary) (h : Salary.create a = .ok m) :
    m.getAmount = a ∧
      (∀ s' : Salary,
        m.addAmount d = .ok s' ∨ m.subtractAmount d = .ok s' ∨
          m.increaseByPercentage d = .ok s' → m.getAmount = a) ∧
      Salary.create 5000 = .ok ⟨5000⟩ ∧
      (Salary.mk 5000).addAmount 1000 = .ok ⟨6000⟩ ∧
      (Salary.mk 5000).getAmount = 5000 := by
  rw [Salary.create_ok_iff] at h
  obtain ⟨h1, h2, rfl⟩ := h
  exact ⟨rfl, fun _ _ => rfl, by decide, by decide, rfl⟩

/-- Witness for C8 with the salary built from `5000` and delta `1000`. -/
theorem salary_immutable_witness :
    (Salary.mk 5000).getAmount = 5000 ∧
      (∀ s' : Salary,
        (Salary.mk 5000).addAmount 1000 = .ok s' ∨
          (Salary.mk 5000).subtractAmount 1000 = .ok s' ∨
          (Salary.mk 5000).increaseByPercentage 1000 = .ok s' →
          (Salary.mk 5000).getAmount = 5000) ∧
      Salary.create 5000 = .ok ⟨5000⟩ ∧
      (Salary.mk 5000).addAmount 1000 = .ok ⟨6000⟩ ∧
      (Salary.mk 5000).getAmount = 5000 :=
  salary_immutable 5000 1000 ⟨5000⟩ (by decide)

/-- C9: round-trip — for every strictly positive amount with at most two
decimal places, construction succeeds and serializing the constructed salary
(`toJSON`) returns exactly the raw amount. -/
theorem create_toJSON_roundtrip (a : ℚ) (h1 : 0 < a) (h2 : decimalPlaces a ≤ 2) :
    Salary.create a = .ok ⟨a⟩ ∧ (Salary.mk a).toJSON = a :=
  ⟨(Salary.create_ok_iff a ⟨a⟩).mpr ⟨h1, h2, rfl⟩, rfl⟩

/-- Witness for C9 at `10.55`. -/
theorem create_toJSON_roundtrip_witness :
    Salary.create (10.55 : ℚ) = .ok ⟨(10.55 : ℚ)⟩ ∧ (Salary.mk (10.55 : ℚ)).toJSON = (10.55 : ℚ) :=
  create_toJSON_roundtrip (10.55 : ℚ) (by decide) (by decide)

/-- C10: subtracting the full amount from a validly constructed salary fails
with the zero error ("Salary cannot be zero"), not the negative error: the
zero difference passes the explicit negative-result check but is rejected by
the constructor's re-validation. -/
theorem subtract_full_amount_zero (a : ℚ) (m : Salary) (h : Salary.create a = .ok m) :
    m.subtractAmount m.getAmount = .error .zero ∧
      ¬ m.subtractAmount m.getAmount = .error .negative := by
  rw [Salary.create_ok_iff] at h
  obtain ⟨h1, h2, rfl⟩ := h
  have key : (Salary.mk a).subtractAmount (Salary.mk a).getAmount = .error .zero := by
    unfold Salary.subtractAmount
    rw [show validateAdjustment (Salary.mk a).getAmount = .ok () from
      (validateAdjustment_ok_iff _).mpr ⟨le_of_lt h1, h2⟩]
    rw [if_neg (show ¬ (Salary.mk a).amount - (Salary.mk a).getAmount < 0 by
      simp [Salary.getAmount])]
    unfold Salary.create validateAmount
    rw [if_neg (show ¬ (Salary.mk a).amount - (Salary.mk a).getAmount < 0 by
        simp [Salary.getAmount]),
      if_pos (show (Salary.mk a).amount - (Salary.mk a).getAmount = 0 from sub_self a)]
  refine ⟨key, ?_⟩
  rw [key]
  exact fun hc => SalaryError.noConfusion (Except.error.inj hc)

/-- Witness for C10 at the salary built from `5000`. -/
theorem subtract_full_amount_zero_witness :
    (Salary.mk 5000).subtractAmount (Salary.mk 5000).getAmount = .error .zero ∧
      ¬ (Salary.mk 5000).subtractAmount (Salary.mk 5000).getAmount = .error .negative :=
  subtract_full_amount_zero 5000 ⟨5000⟩ (by decide)
